import Mathlib

/-!
# mewz lwIP wrapper: callbacks and link hooks of `lwip-wrapper/tcpip.c`

The wrapper is glue between lwIP and the host runtime.  Every function of it is
a short sequence of calls to external functions (host hooks and lwIP entry
points).  The embedding makes those calls observable: a function of the wrapper
is a Lean function returning the list of external calls it performs, in order,
each with the value the callee returned, together with the wrapper's own return
value.  The values returned by the external functions are inputs of the model.

Memory is modelled where the code touches it: a `struct pbuf *` is the list of
its segments (`NULL` is the empty list), a payload pointer is the list of bytes
it points to, and `tx_send`'s stack buffer is a list of `MAX_PKT_SIZE` bytes
whose initial contents are arbitrary.  An access outside an object is a fault.
-/

namespace Mewz

/-! ## Constants -/

/-- Size of the stack buffer of `tx_send`: `#define MAX_PKT_SIZE 2048` (tcpip.c). -/
def MAX_PKT_SIZE : Nat := 2048

/-- Interface MTU: `#define MTU 1500` (tcpip.c). -/
def MTU : Nat := 1500

/-- Link header reserve: `#define PBUF_LINK_HLEN 16` (lwipopts.h). -/
def PBUF_LINK_HLEN : Nat := 16

/-- Constants that tcpip.c takes from lwIP's headers and from the target ABI.
They are not defined in the wrapper, so the model takes them as parameters. -/
structure Consts where
  /-- Value of `ERR_OK` (lwip/err.h). -/
  ERR_OK : Int
  /-- Value of `ERR_MEM` (lwip/err.h). -/
  ERR_MEM : Int
  /-- Value of `ERR_ABRT` (lwip/err.h). -/
  ERR_ABRT : Int
  /-- Value of `ETHTYPE_IP` (lwip/prot/ieee.h). -/
  ETHTYPE_IP : Nat
  /-- Value of `ETHTYPE_ARP` (lwip/prot/ieee.h). -/
  ETHTYPE_ARP : Nat
  /-- Value of `sizeof(int)` on the target. -/
  sizeof_int : Nat
  /-- Bytes in memory of an `int` object holding the given value. -/
  int_repr : Int → List Nat

/-- The values of lwIP 2.x on a little-endian target with 32-bit `int`. -/
def lwip2 : Consts where
  ERR_OK := 0
  ERR_MEM := -1
  ERR_ABRT := -13
  ETHTYPE_IP := 0x0800
  ETHTYPE_ARP := 0x0806
  sizeof_int := 4
  int_repr := fun v => (List.range 4).map (fun i => ((v % 4294967296).toNat / 256 ^ i) % 256)

/-! ## Data model -/

/-- One segment of a packet buffer chain: the fields of `struct pbuf` the
wrapper reads or writes.  The `next` link is the tail of the list holding the
segment. -/
structure Pbuf where
  /-- Bytes at `p->payload`. -/
  payload : List Nat
  /-- Value of `p->len`. -/
  len : Nat
deriving DecidableEq, Repr

/-- A `struct pbuf *`: the chain it heads; `NULL` is the empty chain. -/
abbrev PbufPtr := List Pbuf

/-- A `struct tcp_pcb *`, an opaque handle for the wrapper. -/
abbrev tcp_pcb := Nat

/-- The callback functions the wrapper registers with lwIP. -/
inductive Callback where
  | recv_callback
  | error_callback
  | accept_callback
  | connect_callback
deriving DecidableEq, Repr

/-- A call to an external function, with its arguments and, where the callee
returns a value the wrapper reads, that value (`ret`). -/
inductive Event where
  /-- Host hook `transmit(addr, size)`; `data` is the `size` bytes at `addr`. -/
  | transmit (data : List Nat) (size : Nat)
  /-- Host hook `socketPush(fd, addr, size)`; `addr` is the memory pointed to. -/
  | socketPush (fd : Int) (addr : List Nat) (size : Nat) (ret : Int)
  /-- Host hook `notifyAccepted(pcb, fd)`; `ret` is `none` for `NULL`, else the
  `int` the returned pointer points to. -/
  | notifyAccepted (pcb : tcp_pcb) (fd : Int) (ret : Option Int)
  /-- Host hook `notifyReceived(fd)`. -/
  | notifyReceived (fd : Int)
  /-- Host hook `notifyConnected(fd)`. -/
  | notifyConnected (fd : Int)
  /-- Host hook `notifyClosed(fd)`. -/
  | notifyClosed (fd : Int)
  /-- Host hook `notifyError(fd, err)`. -/
  | notifyError (fd : Int) (err : Int)
  /-- Call `pbuf_alloc(PBUF_RAW, size, PBUF_POOL)`. -/
  | pbuf_alloc (size : Nat) (ret : PbufPtr)
  /-- Call `pbuf_free(p)`. -/
  | pbuf_free (p : PbufPtr)
  /-- Call `netif->input(p, netif)`. -/
  | netif_input (p : PbufPtr) (ret : Int)
  /-- Call `tcp_recved(pcb, len)`. -/
  | tcp_recved (pcb : tcp_pcb) (len : Nat)
  /-- Call `tcp_abort(pcb)`. -/
  | tcp_abort (pcb : tcp_pcb)
  /-- Call `tcp_recv(pcb, cb)`. -/
  | tcp_recv (pcb : tcp_pcb) (cb : Callback)
  /-- Call `tcp_err(pcb, cb)`. -/
  | tcp_err (pcb : tcp_pcb) (cb : Callback)
  /-- Call `tcp_arg(pcb, arg)`; `none` is `NULL`. -/
  | tcp_arg (pcb : tcp_pcb) (arg : Option Int)
  /-- Call `tcp_write(pcb, data, size, apiflags)`. -/
  | tcp_write (pcb : tcp_pcb) (data : List Nat) (size : Nat) (apiflags : Nat) (ret : Int)
  /-- Call `tcp_output(pcb)`. -/
  | tcp_output (pcb : tcp_pcb) (ret : Int)
  /-- Call `printf` of `accept_callback` with the error it prints. -/
  | printf (err : Int)
deriving DecidableEq, Repr

/-- Memory faults of the C code. -/
inductive Fault where
  /-- Write through or read of a `NULL` pointer. -/
  | null_deref
  /-- Read past the end of the object pointed to. -/
  | oob_read
  /-- Write past the end of the object pointed to. -/
  | oob_write
deriving DecidableEq, Repr

/-- The bytes a segment carries: the first `len` bytes at its payload pointer. -/
def seg_bytes (p : Pbuf) : List Nat := p.payload.take p.len

/-- The bytes a chain carries, in chain order. -/
def chain_bytes (head : PbufPtr) : List Nat := head.flatMap seg_bytes

/-- Sum of the segment lengths of a chain. -/
def chain_len (head : PbufPtr) : Nat := (head.map Pbuf.len).sum

/-- Every segment has at least `len` readable bytes at its payload pointer. -/
def chain_wf (head : PbufPtr) : Prop := ∀ p ∈ head, p.len ≤ p.payload.length

instance (head : PbufPtr) : Decidable (chain_wf head) := by
  unfold chain_wf; infer_instance

/-! ## tx_send -/

/-- The call `memcpy(&dst[off], src, n)`: reads `n` bytes of `src`, writes them
to `dst` from index `off`. -/
def memcpy (dst : List Nat) (off : Nat) (src : List Nat) (n : Nat) : Except Fault (List Nat) :=
  if src.length < n then .error .oob_read
  else if dst.length < off + n then .error .oob_write
  else .ok (dst.take off ++ src.take n ++ dst.drop (off + n))

/-- The loop of `tx_send`: for each segment, copy it at `offset` and advance. -/
def tx_send_loop : PbufPtr → List Nat → Nat → Except Fault (List Nat × Nat)
  | [], pkt_buf, offset => .ok (pkt_buf, offset)
  | p :: next, pkt_buf, offset =>
    match memcpy pkt_buf offset p.payload p.len with
    | .error f => .error f
    | .ok pkt_buf' => tx_send_loop next pkt_buf' (offset + p.len)

/-- Embedding of `tx_send(netif, head)`.  The buffer `pkt_buf` is uninitialised:
its initial bytes are given by `stack`. -/
def tx_send (K : Consts) (stack : Nat → Nat) (head : PbufPtr) :
    Except Fault (List Event × Int) :=
  match tx_send_loop head ((List.range MAX_PKT_SIZE).map stack) 0 with
  | .error f => .error f
  | .ok (pkt_buf, offset) => .ok ([Event.transmit (pkt_buf.take offset) offset], K.ERR_OK)

/-! ## rx_recv -/

/-- Load of the 16-bit field `ethhdr->type` (offset 12 of `struct eth_hdr`) on
the little-endian target. -/
def eth_hdr_type (data : List Nat) : Option Nat :=
  match data[12]?, data[13]? with
  | some b0, some b1 => some (b0 + 256 * b1)
  | _, _ => none

/-- The byte swap `htons` of the little-endian target. -/
def htons (x : Nat) : Nat := (x % 256) * 256 + (x / 256) % 256

/-- Embedding of `rx_recv(data, size)`.  `alloc` is what `pbuf_alloc` returns
and `input` is the result of `netif->input` for the buffer it is given. -/
def rx_recv (K : Consts) (data : List Nat) (size : Nat) (alloc : PbufPtr)
    (input : PbufPtr → Int) : Except Fault (List Event) :=
  match alloc with
  | [] => .error .null_deref
  | p0 :: next =>
    let p : PbufPtr := { p0 with payload := data, len := size } :: next
    match eth_hdr_type data with
    | none => .error .oob_read
    | some type =>
      if htons type = K.ETHTYPE_IP ∨ htons type = K.ETHTYPE_ARP then
        let ret := input p
        if ret ≠ K.ERR_OK then
          .ok [Event.pbuf_alloc size alloc, Event.netif_input p ret, Event.pbuf_free p]
        else
          .ok [Event.pbuf_alloc size alloc, Event.netif_input p ret]
      else
        .ok [Event.pbuf_alloc size alloc, Event.pbuf_free p]

/-! ## TCP callbacks -/

/-- The loop of `recv_callback` from its `i`-th iteration: credit the window
for the segment, push it, stop with `false` when the push fails.  `push i` is
what the `i`-th `socketPush` of the call returns. -/
def recv_loop (tpcb : tcp_pcb) (fd : Int) (push : Nat → Int) : Nat → PbufPtr → List Event × Bool
  | _, [] => ([], true)
  | i, p :: next =>
    let evs := [Event.tcp_recved tpcb p.len, Event.socketPush fd p.payload p.len (push i)]
    if push i < 0 then (evs, false)
    else
      let r := recv_loop tpcb fd push (i + 1) next
      (evs ++ r.1, r.2)

/-- Embedding of `recv_callback(arg, tpcb, head, err)`.  `arg` is `none` for
`NULL`, else the `int` it points to. -/
def recv_callback (K : Consts) (push : Nat → Int) (arg : Option Int) (tpcb : tcp_pcb)
    (head : PbufPtr) (_err : Int) : List Event × Int :=
  match arg with
  | none => ([], K.ERR_OK)
  | some fd =>
    match head with
    | [] => ([Event.notifyClosed fd], K.ERR_OK)
    | _ :: _ =>
      let r := recv_loop tpcb fd push 0 head
      if r.2 then (r.1 ++ [Event.pbuf_free head, Event.notifyReceived fd], K.ERR_OK)
      else (r.1, K.ERR_MEM)

/-- Embedding of `error_callback(arg, err)`. -/
def error_callback (arg : Option Int) (err : Int) : List Event :=
  match arg with
  | none => []
  | some fd => [Event.notifyError fd err]

/-- Embedding of `accept_callback(arg, newpcb, err)`.  `accepted` is what
`notifyAccepted` returns and `push` what `socketPush` returns. -/
def accept_callback (K : Consts) (accepted : Option Int) (push : Int) (arg : Option Int)
    (newpcb : tcp_pcb) (err : Int) : List Event × Int :=
  match arg with
  | none => ([Event.tcp_abort newpcb], K.ERR_ABRT)
  | some fd =>
    if err ≠ K.ERR_OK then ([Event.printf err], err)
    else
      match accepted with
      | none => ([Event.notifyAccepted newpcb fd none, Event.tcp_abort newpcb], K.ERR_ABRT)
      | some new_fd =>
        let evs := [Event.notifyAccepted newpcb fd (some new_fd),
                    Event.socketPush fd (K.int_repr new_fd) K.sizeof_int push]
        if push < 0 then (evs, K.ERR_MEM)
        else
          (evs ++ [Event.tcp_recv newpcb Callback.recv_callback,
                   Event.tcp_err newpcb Callback.error_callback], K.ERR_OK)

/-- Embedding of `connect_callback(arg, tpcb, err)`. -/
def connect_callback (K : Consts) (arg : Option Int) (tpcb : tcp_pcb) (_err : Int) :
    List Event × Int :=
  match arg with
  | none => ([Event.tcp_abort tpcb], K.ERR_ABRT)
  | some fd => ([Event.notifyConnected fd], K.ERR_OK)

/-! ## Host-issued commands -/

/-- Embedding of `lwip_send(pcb, data, size)`.  `write` is what `tcp_write`
returns and `output` what `tcp_output` returns. -/
def lwip_send (K : Consts) (write output : Int) (pcb : tcp_pcb) (data : List Nat) (size : Nat) :
    List Event × Int :=
  if write ≠ K.ERR_OK then ([Event.tcp_write pcb data size 1 write], write)
  else ([Event.tcp_write pcb data size 1 write, Event.tcp_output pcb output], output)

/-- Embedding of `lwip_set_fd(pcb, fd_ptr)`. -/
def lwip_set_fd (pcb : tcp_pcb) (fd_ptr : Option Int) : List Event :=
  [Event.tcp_arg pcb fd_ptr]

/-- Embedding of `lwip_unset_fd(pcb)`. -/
def lwip_unset_fd (pcb : tcp_pcb) : List Event :=
  [Event.tcp_arg pcb none]

/-! ## Observations on traces -/

/-- Host events: the calls that raise an event toward the host or push bytes
to a host socket. -/
def Event.isHost : Event → Bool
  | .socketPush _ _ _ _ => true
  | .notifyAccepted _ _ _ => true
  | .notifyReceived _ => true
  | .notifyConnected _ => true
  | .notifyClosed _ => true
  | .notifyError _ _ => true
  | _ => false

/-- Calls that register a callback on a connection. -/
def Event.isRegister : Event → Bool
  | .tcp_recv _ _ => true
  | .tcp_err _ _ => true
  | _ => false

/-- The `socketPush` calls of a trace, in order: socket, memory at the address,
size. -/
def push_calls (t : List Event) : List (Int × List Nat × Nat) :=
  t.filterMap fun e =>
    match e with
    | .socketPush fd addr size _ => some (fd, addr, size)
    | _ => none

/-- The bytes the host accepted on socket `fd`: for every `socketPush` on `fd`
that did not fail, the `size` bytes at its address, in call order. -/
def pushed_bytes (fd : Int) (t : List Event) : List Nat :=
  t.flatMap fun e =>
    match e with
    | .socketPush fd' addr size ret => if fd' = fd ∧ 0 ≤ ret then addr.take size else []
    | _ => []

/-- Total window credit given to `pcb` through `tcp_recved`. -/
def recved_total (pcb : tcp_pcb) (t : List Event) : Nat :=
  (t.map fun e =>
    match e with
    | .tcp_recved pcb' len => if pcb' = pcb then len else 0
    | _ => 0).sum

/-- The arguments of the `pbuf_free` calls of a trace, in order. -/
def free_calls (t : List Event) : List PbufPtr :=
  t.filterMap fun e =>
    match e with
    | .pbuf_free p => some p
    | _ => none

/-- The arguments of the `notifyReceived` calls of a trace, in order. -/
def received_calls (t : List Event) : List Int :=
  t.filterMap fun e =>
    match e with
    | .notifyReceived fd => some fd
    | _ => none

/-- The callback argument lwIP holds for `pcb` after the calls of a trace, when
it held `arg0` before: `tcp_arg(pcb, arg)` stores `arg`, which lwIP then passes
as first argument to every callback of the connection. -/
def callback_arg (pcb : tcp_pcb) (arg0 : Option Int) (t : List Event) : Option Int :=
  t.foldl (fun a e =>
    match e with
    | .tcp_arg pcb' arg => if pcb' = pcb then arg else a
    | _ => a) arg0

/-! ## Lemmas on the copy loop of tx_send -/

theorem chain_len_cons (p : Pbuf) (next : PbufPtr) :
    chain_len (p :: next) = p.len + chain_len next := by
  simp [chain_len]

theorem chain_bytes_cons (p : Pbuf) (next : PbufPtr) :
    chain_bytes (p :: next) = seg_bytes p ++ chain_bytes next := by
  simp [chain_bytes]

theorem memcpy_ok (dst : List Nat) (off : Nat) (src : List Nat) (n : Nat)
    (hsrc : n ≤ src.length) (hdst : off + n ≤ dst.length) :
    memcpy dst off src n = .ok (dst.take off ++ src.take n ++ dst.drop (off + n)) := by
  unfold memcpy
  rw [if_neg (by omega), if_neg (by omega)]

theorem memcpy_length (dst : List Nat) (off : Nat) (src : List Nat) (n : Nat)
    (hsrc : n ≤ src.length) (hdst : off + n ≤ dst.length) :
    (dst.take off ++ src.take n ++ dst.drop (off + n)).length = dst.length := by
  simp only [List.length_append, List.length_take, List.length_drop]
  omega

theorem memcpy_take (dst : List Nat) (off : Nat) (src : List Nat) (n : Nat)
    (hsrc : n ≤ src.length) (hdst : off + n ≤ dst.length) :
    (dst.take off ++ src.take n ++ dst.drop (off + n)).take (off + n)
      = dst.take off ++ src.take n := by
  have hlen : (dst.take off ++ src.take n).length = off + n := by
    simp only [List.length_append, List.length_take]
    omega
  rw [← hlen, List.take_left]

theorem tx_send_loop_ok (head : PbufPtr) :
    ∀ (pkt_buf : List Nat) (offset : Nat), chain_wf head →
      offset + chain_len head ≤ pkt_buf.length →
      ∃ buf, tx_send_loop head pkt_buf offset = .ok (buf, offset + chain_len head)
        ∧ buf.length = pkt_buf.length
        ∧ buf.take (offset + chain_len head) = pkt_buf.take offset ++ chain_bytes head := by
  induction head with
  | nil =>
    intro pkt_buf offset _ _
    exact ⟨pkt_buf, by simp [tx_send_loop, chain_len], rfl, by simp [chain_len, chain_bytes]⟩
  | cons p next ih =>
    intro pkt_buf offset hwf hfit
    rw [chain_len_cons] at hfit
    have hp : p.len ≤ p.payload.length := hwf p (List.mem_cons_self _ _)
    have hnext : chain_wf next := fun q hq => hwf q (List.mem_cons_of_mem _ hq)
    have hdst : offset + p.len ≤ pkt_buf.length := by omega
    obtain ⟨buf, hrun, hlen, htake⟩ :=
      ih (pkt_buf.take offset ++ p.payload.take p.len ++ pkt_buf.drop (offset + p.len))
        (offset + p.len) hnext
        (by rw [memcpy_length _ _ _ _ hp hdst]; omega)
    refine ⟨buf, ?_, ?_, ?_⟩
    · simp only [tx_send_loop, memcpy_ok _ _ _ _ hp hdst]
      rw [hrun, chain_len_cons, Nat.add_assoc]
    · rw [hlen, memcpy_length _ _ _ _ hp hdst]
    · rw [chain_len_cons, ← Nat.add_assoc, htake, memcpy_take _ _ _ _ hp hdst,
        chain_bytes_cons, seg_bytes, List.append_assoc]

/-! ## Lemmas on the receive loop -/

theorem recv_loop_all_pushed (tpcb : tcp_pcb) (fd : Int) (push : Nat → Int) (head : PbufPtr) :
    ∀ i : Nat, (∀ j, j < head.length → 0 ≤ push (i + j)) →
      (recv_loop tpcb fd push i head).2 = true
        ∧ push_calls (recv_loop tpcb fd push i head).1
            = head.map (fun p => (fd, p.payload, p.len))
        ∧ pushed_bytes fd (recv_loop tpcb fd push i head).1 = chain_bytes head
        ∧ recved_total tpcb (recv_loop tpcb fd push i head).1 = chain_len head
        ∧ free_calls (recv_loop tpcb fd push i head).1 = []
        ∧ received_calls (recv_loop tpcb fd push i head).1 = [] := by
  induction head with
  | nil =>
    intro i _
    simp [recv_loop, push_calls, pushed_bytes, recved_total, free_calls, received_calls,
      chain_bytes, chain_len]
  | cons p next ih =>
    intro i hall
    have h0 : 0 ≤ push i := by simpa using hall 0 (by simp)
    have hrest : ∀ j, j < next.length → 0 ≤ push (i + 1 + j) := by
      intro j hj
      have := hall (j + 1) (by simpa using hj)
      rwa [show i + 1 + j = i + (j + 1) by omega]
    obtain ⟨hok, hcalls, hbytes, hcredit, hfree, hnote⟩ := ih (i + 1) hrest
    have hnot : ¬ push i < 0 := by omega
    simp only [recv_loop, if_neg hnot]
    refine ⟨hok, ?_, ?_, ?_, ?_, ?_⟩
    · simpa [push_calls] using hcalls
    · simpa [pushed_bytes, h0, chain_bytes, seg_bytes] using hbytes
    · simpa [recved_total, chain_len] using hcredit
    · simpa [free_calls] using hfree
    · simpa [received_calls] using hnote

/-! ## Claims -/

/-- C1. For every chain whose segments are readable and whose segment lengths
sum to at most `MAX_PKT_SIZE` (a bound that covers `MTU + PBUF_LINK_HLEN`),
`tx_send` runs without a memory fault whatever the initial stack contents,
calls `transmit` exactly once with the concatenation of the segments in chain
order and the summed length as size, and returns `ERR_OK`. -/
theorem tx_send_transmits_chain (K : Consts) (stack : Nat → Nat) (head : PbufPtr)
    (hwf : chain_wf head) (hfit : chain_len head ≤ MAX_PKT_SIZE) :
    tx_send K stack head
        = .ok ([Event.transmit (chain_bytes head) (chain_len head)], K.ERR_OK)
      ∧ MTU + PBUF_LINK_HLEN ≤ MAX_PKT_SIZE := by
  refine ⟨?_, by decide⟩
  obtain ⟨buf, hrun, _, htake⟩ :=
    tx_send_loop_ok head ((List.range MAX_PKT_SIZE).map stack) 0 hwf
      (by simpa using hfit)
  simp only [Nat.zero_add] at hrun htake
  simp only [tx_send, hrun, htake, List.take_zero, List.nil_append]

/-- Witness of C1 on a two-segment chain. -/
theorem tx_send_transmits_chain_witness :
    tx_send lwip2 (fun _ => 0) [⟨[1, 2, 3], 2⟩, ⟨[4, 5], 2⟩]
        = .ok ([Event.transmit [1, 2, 4, 5] 4], 0)
      ∧ MTU + PBUF_LINK_HLEN ≤ MAX_PKT_SIZE :=
  tx_send_transmits_chain lwip2 (fun _ => 0) [⟨[1, 2, 3], 2⟩, ⟨[4, 5], 2⟩]
    (by decide) (by decide)

/-- C2. For a frame that carries an Ethernet header and for which `pbuf_alloc`
returned a buffer: when the type field is IPv4 or ARP, `rx_recv` calls the
interface's input function exactly once with the buffer and frees the buffer
exactly when input returned something other than `ERR_OK`; for any other type
it never calls input and frees the buffer exactly once. -/
theorem rx_recv_dispatch (K : Consts) (data : List Nat) (size : Nat) (p0 : Pbuf)
    (next : PbufPtr) (input : PbufPtr → Int) (type : Nat)
    (htype : eth_hdr_type data = some type) :
    (htons type = K.ETHTYPE_IP ∨ htons type = K.ETHTYPE_ARP →
      rx_recv K data size (p0 :: next) input
        = .ok (Event.pbuf_alloc size (p0 :: next)
            :: Event.netif_input (⟨data, size⟩ :: next) (input (⟨data, size⟩ :: next))
            :: (if input (⟨data, size⟩ :: next) ≠ K.ERR_OK
                then [Event.pbuf_free (⟨data, size⟩ :: next)] else [])))
    ∧ (¬ (htons type = K.ETHTYPE_IP ∨ htons type = K.ETHTYPE_ARP) →
      rx_recv K data size (p0 :: next) input
        = .ok [Event.pbuf_alloc size (p0 :: next), Event.pbuf_free (⟨data, size⟩ :: next)]) := by
  constructor
  · intro h
    by_cases hret : input (⟨data, size⟩ :: next) = K.ERR_OK
    · simp [rx_recv, htype, h, hret]
    · simp [rx_recv, htype, h, hret]
  · intro h
    simp [rx_recv, htype, h]

/-- Witness of C2 on a 14-byte IPv4 frame whose input is refused. -/
theorem rx_recv_dispatch_witness :
    eth_hdr_type [0, 0, 0, 0, 0, 0, 0, 0, 0, 0, 0, 0, 8, 0] = some 8
      ∧ rx_recv lwip2 [0, 0, 0, 0, 0, 0, 0, 0, 0, 0, 0, 0, 8, 0] 14 [⟨[], 14⟩] (fun _ => -1)
        = .ok [Event.pbuf_alloc 14 [⟨[], 14⟩],
            Event.netif_input [⟨[0, 0, 0, 0, 0, 0, 0, 0, 0, 0, 0, 0, 8, 0], 14⟩] (-1),
            Event.pbuf_free [⟨[0, 0, 0, 0, 0, 0, 0, 0, 0, 0, 0, 0, 8, 0], 14⟩]] :=
  ⟨by decide,
   (rx_recv_dispatch lwip2 [0, 0, 0, 0, 0, 0, 0, 0, 0, 0, 0, 0, 8, 0] 14 ⟨[], 14⟩ []
      (fun _ => -1) 8 (by decide)).1 (by decide)⟩

/-- C3. When `accept_callback` is called with a non-null listening token and
`ERR_OK` and the host rejects the connection (`notifyAccepted` returns `NULL`),
the calls made are `notifyAccepted` then `tcp_abort` on the new connection and
nothing else: nothing is pushed, no callback is registered, and `ERR_ABRT` is
returned. -/
theorem accept_callback_rejected (K : Consts) (push : Int) (fd : Int) (newpcb : tcp_pcb) :
    accept_callback K none push (some fd) newpcb K.ERR_OK
        = ([Event.notifyAccepted newpcb fd none, Event.tcp_abort newpcb], K.ERR_ABRT)
      ∧ push_calls (accept_callback K none push (some fd) newpcb K.ERR_OK).1 = []
      ∧ (accept_callback K none push (some fd) newpcb K.ERR_OK).1.any Event.isRegister
          = false := by
  simp [accept_callback, push_calls, Event.isRegister]

/-- C4. When `accept_callback` is called with a non-null listening token and
`ERR_OK`, the host admits the connection and the push succeeds, then the calls
made are `notifyAccepted`, one `socketPush` to the listening token's socket of
`sizeof(int)` bytes at the new token, `tcp_recv` with `recv_callback` and
`tcp_err` with `error_callback` on the new connection; there is no `tcp_abort`
and the result is `ERR_OK`.  In every call of `accept_callback` that registers
a callback, the token is non-null, `err` is `ERR_OK`, the host admitted the
connection and the push did not fail. -/
theorem accept_callback_admitted (K : Consts) (new_fd : Int) (push : Int) (fd : Int)
    (newpcb : tcp_pcb) (hpush : 0 ≤ push) :
    accept_callback K (some new_fd) push (some fd) newpcb K.ERR_OK
        = ([Event.notifyAccepted newpcb fd (some new_fd),
            Event.socketPush fd (K.int_repr new_fd) K.sizeof_int push,
            Event.tcp_recv newpcb Callback.recv_callback,
            Event.tcp_err newpcb Callback.error_callback], K.ERR_OK)
      ∧ ∀ (accepted : Option Int) (push' : Int) (arg : Option Int) (err : Int),
          (accept_callback K accepted push' arg newpcb err).1.any Event.isRegister = true →
            arg ≠ none ∧ err = K.ERR_OK ∧ accepted ≠ none ∧ 0 ≤ push' := by
  constructor
  · have hnot : ¬ push < 0 := by omega
    simp [accept_callback, hnot]
  · intro accepted push' arg err
    cases arg with
    | none => simp [accept_callback, Event.isRegister]
    | some fd' =>
      by_cases herr : err = K.ERR_OK
      · cases accepted with
        | none => simp [accept_callback, herr, Event.isRegister]
        | some v =>
          by_cases hp : push' < 0
          · simp [accept_callback, herr, hp, Event.isRegister]
          · intro _
            exact ⟨by simp, herr, by simp, by omega⟩
      · simp [accept_callback, herr, Event.isRegister]

/-- Witness of C4: listening token 3, new token 7, push returning 0. -/
theorem accept_callback_admitted_witness :
    accept_callback lwip2 (some 7) 0 (some 3) 1 0
        = ([Event.notifyAccepted 1 3 (some 7), Event.socketPush 3 [7, 0, 0, 0] 4 0,
            Event.tcp_recv 1 Callback.recv_callback,
            Event.tcp_err 1 Callback.error_callback], 0) :=
  (accept_callback_admitted lwip2 7 0 3 1 (by decide)).1

/-- C5. When `recv_callback` is called with a non-null token and a non-empty
chain and every `socketPush` succeeds, the pushes are one per segment, in chain
order, each to the token's socket with the segment's payload and length, so
the bytes pushed are the concatenation of the segments; `tcp_recved` credits
the sum of the segment lengths; `pbuf_free` is called exactly once, on the
chain; and the result is `ERR_OK`. -/
theorem recv_callback_delivers (K : Consts) (push : Nat → Int) (fd : Int) (tpcb : tcp_pcb)
    (head : PbufPtr) (err : Int) (hne : head ≠ [])
    (hpush : ∀ i, i < head.length → 0 ≤ push i) :
    (recv_callback K push (some fd) tpcb head err).2 = K.ERR_OK
      ∧ push_calls (recv_callback K push (some fd) tpcb head err).1
          = head.map (fun p => (fd, p.payload, p.len))
      ∧ pushed_bytes fd (recv_callback K push (some fd) tpcb head err).1 = chain_bytes head
      ∧ recved_total tpcb (recv_callback K push (some fd) tpcb head err).1 = chain_len head
      ∧ free_calls (recv_callback K push (some fd) tpcb head err).1 = [head] := by
  obtain ⟨hok, hcalls, hbytes, hcredit, hfree, _⟩ :=
    recv_loop_all_pushed tpcb fd push head 0 (by simpa using hpush)
  cases head with
  | nil => exact absurd rfl hne
  | cons p next =>
    simp only [recv_callback, hok, if_true]
    refine ⟨trivial, ?_, ?_, ?_, ?_⟩
    · simpa [push_calls] using hcalls
    · simpa [pushed_bytes] using hbytes
    · simpa [recved_total] using hcredit
    · simpa [free_calls] using hfree

/-- Witness of C5 on a two-segment chain. -/
theorem recv_callback_delivers_witness :
    (recv_callback lwip2 (fun _ => 0) (some 3) 1 [⟨[7, 8], 2⟩, ⟨[9], 1⟩] 0).2 = 0
      ∧ push_calls (recv_callback lwip2 (fun _ => 0) (some 3) 1 [⟨[7, 8], 2⟩, ⟨[9], 1⟩] 0).1
          = [(3, [7, 8], 2), (3, [9], 1)]
      ∧ pushed_bytes 3 (recv_callback lwip2 (fun _ => 0) (some 3) 1 [⟨[7, 8], 2⟩, ⟨[9], 1⟩] 0).1
          = [7, 8, 9]
      ∧ recved_total 1 (recv_callback lwip2 (fun _ => 0) (some 3) 1 [⟨[7, 8], 2⟩, ⟨[9], 1⟩] 0).1
          = 3
      ∧ free_calls (recv_callback lwip2 (fun _ => 0) (some 3) 1 [⟨[7, 8], 2⟩, ⟨[9], 1⟩] 0).1
          = [[⟨[7, 8], 2⟩, ⟨[9], 1⟩]] :=
  recv_callback_delivers lwip2 (fun _ => 0) 3 1 [⟨[7, 8], 2⟩, ⟨[9], 1⟩] 0 (by decide)
    (fun _ _ => Int.le_refl 0)

/-- C6, as stated, fails.  On a chain of two one-byte segments where the first
`socketPush` succeeds and the second fails, one byte has been pushed to the
host socket, yet `recv_callback` returns `ERR_MEM` without any
`notifyReceived` (and without `pbuf_free`). -/
theorem recv_callback_failed_push_unnotified :
    pushed_bytes 3 (recv_callback lwip2 (fun i => if i = 0 then 0 else -1) (some 3) 1
        [⟨[7], 1⟩, ⟨[9], 1⟩] 0).1 = [7]
      ∧ received_calls (recv_callback lwip2 (fun i => if i = 0 then 0 else -1) (some 3) 1
        [⟨[7], 1⟩, ⟨[9], 1⟩] 0).1 = []
      ∧ recv_callback lwip2 (fun i => if i = 0 then 0 else -1) (some 3) 1
        [⟨[7], 1⟩, ⟨[9], 1⟩] 0
        = ([Event.tcp_recved 1 1, Event.socketPush 3 [7] 1 0,
            Event.tcp_recved 1 1, Event.socketPush 3 [9] 1 (-1)], -1) := by
  decide

/-- C6, amended.  When `recv_callback` is called with a non-null token and a
non-empty chain and every `socketPush` succeeds, `notifyReceived` is raised
exactly once, for that token, and it is the last call made, after every
push. -/
theorem recv_callback_notifies_once (K : Consts) (push : Nat → Int) (fd : Int)
    (tpcb : tcp_pcb) (head : PbufPtr) (err : Int) (hne : head ≠ [])
    (hpush : ∀ i, i < head.length → 0 ≤ push i) :
    received_calls (recv_callback K push (some fd) tpcb head err).1 = [fd]
      ∧ (recv_callback K push (some fd) tpcb head err).1.getLast?
          = some (Event.notifyReceived fd) := by
  obtain ⟨hok, _, _, _, _, hnote⟩ :=
    recv_loop_all_pushed tpcb fd push head 0 (by simpa using hpush)
  cases head with
  | nil => exact absurd rfl hne
  | cons p next =>
    simp only [recv_callback, hok, if_true]
    refine ⟨?_, ?_⟩
    · simpa [received_calls] using hnote
    · simp [List.getLast?_append]

/-- Witness of amended C6 on a two-segment chain. -/
theorem recv_callback_notifies_once_witness :
    received_calls (recv_callback lwip2 (fun _ => 0) (some 3) 1 [⟨[7], 1⟩, ⟨[9], 1⟩] 0).1 = [3]
      ∧ (recv_callback lwip2 (fun _ => 0) (some 3) 1 [⟨[7], 1⟩, ⟨[9], 1⟩] 0).1.getLast?
          = some (Event.notifyReceived 3) :=
  recv_callback_notifies_once lwip2 (fun _ => 0) 3 1 [⟨[7], 1⟩, ⟨[9], 1⟩] 0 (by decide)
    (fun _ _ => Int.le_refl 0)

/-- C7, evaluated on the code.  When `pbuf_alloc` returns `NULL`, `rx_recv`
stores through the null pointer (`p->payload = data`): on a 14-byte IPv4 frame
the run ends in a null dereference instead of dropping the frame. -/
theorem rx_recv_alloc_failure_null_deref :
    rx_recv lwip2 [0, 0, 0, 0, 0, 0, 0, 0, 0, 0, 0, 0, 8, 0] 14 [] (fun _ => 0)
      = .error Fault.null_deref := by
  rfl

/-- C8. With a non-null token each lifecycle callback raises exactly one host
event, carrying the token's fd: `error_callback` raises `notifyError` with the
error it was given; `connect_callback` raises `notifyConnected` and returns
`ERR_OK`; `recv_callback` on a `NULL` chain raises `notifyClosed`, pushes
nothing, raises no `notifyReceived` and returns `ERR_OK`. -/
theorem lifecycle_callbacks_raise_one_event (K : Consts) (push : Nat → Int) (fd : Int)
    (tpcb : tcp_pcb) (err : Int) :
    error_callback (some fd) err = [Event.notifyError fd err]
      ∧ connect_callback K (some fd) tpcb err = ([Event.notifyConnected fd], K.ERR_OK)
      ∧ recv_callback K push (some fd) tpcb [] err = ([Event.notifyClosed fd], K.ERR_OK)
      ∧ push_calls (recv_callback K push (some fd) tpcb [] err).1 = []
      ∧ received_calls (recv_callback K push (some fd) tpcb [] err).1 = [] := by
  simp [error_callback, connect_callback, recv_callback, push_calls, received_calls]

/-- C9. When `tcp_write` returns an error, `lwip_send` returns that error and
does not call `tcp_output`; when `tcp_write` returns `ERR_OK`, `lwip_send`
calls `tcp_output` exactly once and returns its result. -/
theorem lwip_send_result (K : Consts) (write output : Int) (pcb : tcp_pcb) (data : List Nat)
    (size : Nat) :
    (write ≠ K.ERR_OK →
      lwip_send K write output pcb data size
        = ([Event.tcp_write pcb data size 1 write], write))
    ∧ (write = K.ERR_OK →
      lwip_send K write output pcb data size
        = ([Event.tcp_write pcb data size 1 write, Event.tcp_output pcb output], output)) := by
  constructor
  · intro h
    simp [lwip_send, h]
  · intro h
    simp [lwip_send, h]

/-- Witness of C9: `tcp_write` refusing with `ERR_MEM`, and `tcp_write`
accepting with `tcp_output` returning `-4`. -/
theorem lwip_send_result_witness :
    lwip_send lwip2 (-1) 0 5 [1, 2] 2 = ([Event.tcp_write 5 [1, 2] 2 1 (-1)], -1)
      ∧ lwip_send lwip2 0 (-4) 5 [1, 2] 2
        = ([Event.tcp_write 5 [1, 2] 2 1 0, Event.tcp_output 5 (-4)], -4) :=
  ⟨(lwip_send_result lwip2 (-1) 0 5 [1, 2] 2).1 (by decide),
   (lwip_send_result lwip2 0 (-4) 5 [1, 2] 2).2 (by decide)⟩

/-- C10. `lwip_unset_fd` sets the callback argument of the connection to
`NULL`, whatever it was.  With a `NULL` argument, `recv_callback` returns
`ERR_OK` and calls nothing; `error_callback` calls nothing; `accept_callback`
and `connect_callback` only call `tcp_abort` on the connection and return
`ERR_ABRT`.  So none of them raises a host event or pushes to a host
socket. -/
theorem detached_token_silent (K : Consts) (pcb newpcb : tcp_pcb) (arg0 : Option Int)
    (push : Nat → Int) (accepted : Option Int) (apush : Int) (head : PbufPtr) (err : Int) :
    lwip_unset_fd pcb = [Event.tcp_arg pcb none]
      ∧ callback_arg pcb arg0 (lwip_unset_fd pcb) = none
      ∧ recv_callback K push none pcb head err = ([], K.ERR_OK)
      ∧ error_callback none err = []
      ∧ accept_callback K accepted apush none newpcb err
          = ([Event.tcp_abort newpcb], K.ERR_ABRT)
      ∧ connect_callback K none pcb err = ([Event.tcp_abort pcb], K.ERR_ABRT)
      ∧ (recv_callback K push none pcb head err).1.any Event.isHost = false
      ∧ (error_callback none err).any Event.isHost = false
      ∧ (accept_callback K accepted apush none newpcb err).1.any Event.isHost = false
      ∧ (connect_callback K none pcb err).1.any Event.isHost = false := by
  simp [lwip_unset_fd, callback_arg, recv_callback, error_callback, accept_callback,
    connect_callback, Event.isHost]

end Mewz
